import Mathlib

/-!
Verification of the job-distribution and anti-detection control logic of the
GoogleScraper repository (file `GoogleScraper/scraping.py`), as a shallow
embedding in Lean.

Python dictionaries are embedded as association lists (insertion-ordered,
unique keys); the filesystem seen by `os.path.exists`/`open` is an association
list from paths to contents; `random.choice` and `random.randrange` are given
an explicit seed argument, with the chosen index/offset obtained by reducing
the seed modulo the number of alternatives.
-/

namespace GoogleScraper

/-! ## Basic embedding helpers -/

/-- Lookup in a Python dict embedded as an association list:
`config.get(key, None)`. -/
def configGet (config : List (String × String)) (key : String) : Option String :=
  (config.find? (fun p => p.1 == key)).map (fun p => p.2)

/-- Python truthiness test for an optional string: `None` and `''` are falsy. -/
def pyFalsyStr : Option String → Bool
  | none => true
  | some s => s == ""

/-- Helper for `splitNl`: accumulates the current field (in reverse) while
scanning the character list. -/
def splitNlAux : List Char → List Char → List (List Char)
  | [], acc => [acc.reverse]
  | c :: rest, acc =>
    if c = '\n' then acc.reverse :: splitNlAux rest []
    else splitNlAux rest (c :: acc)

/-- Embedding of Python's `str.split('\n')`: splits on every newline and keeps
empty fields, so `"a\n"` yields `["a", ""]` and `""` yields `[""]`. -/
def splitNl (s : String) : List String :=
  (splitNlAux s.data []).map String.mk

/-- Embedding of Python's `sorted(keys, reverse=True)` for natural-number keys
(the sleeping-range dict keys are distinct integers, so any descending sort
agrees with CPython's). -/
def sortDesc (l : List Nat) : List Nat := l.insertionSort (· ≥ ·)

/-! ## Sleep-range lookup (`SearchEngineScrape._largest_sleep_range`) -/

/-- A sleeping-range table `{n: (min, max)}` embedded as an association list. -/
abbrev SleepRanges := List (Nat × (Nat × Nat))

/-- Python dict indexing `self.sleeping_ranges[n]` for a key produced by
iterating the dict's own keys (hence always present; the default is a
modelling artefact for the impossible missing-key case). -/
def dictGetRange (ranges : SleepRanges) (key : Nat) : Nat × Nat :=
  ((ranges.find? (fun p => p.1 == key)).map (fun p => p.2)).getD (1, 2)

/-- The `for n in s: if search_number % n == 0: return self.sleeping_ranges[n]`
loop of `_largest_sleep_range`, falling through to the default `(1, 2)`. -/
def scanDivisor (ranges : SleepRanges) (sn : Nat) : List Nat → Nat × Nat
  | [] => (1, 2)
  | n :: rest => if sn % n = 0 then dictGetRange ranges n else scanDivisor ranges sn rest

/-- Embedding of `SearchEngineScrape._largest_sleep_range`: if the search
number is nonzero, scan the table keys in descending order and return the
range of the first key dividing it; otherwise return the default `(1, 2)`. -/
def largest_sleep_range (ranges : SleepRanges) (search_number : Nat) : Nat × Nat :=
  if search_number ≠ 0 then
    scanDivisor ranges search_number (sortDesc (ranges.map Prod.fst))
  else (1, 2)

/-! ## Lemmas about the sleep-range scan -/

lemma dictGetRange_eq (ranges : SleepRanges) (k : Nat) (v : Nat × Nat)
    (hnodup : (ranges.map Prod.fst).Nodup) (hmem : (k, v) ∈ ranges) :
    dictGetRange ranges k = v := by
  induction ranges with
  | nil => cases hmem
  | cons p rest ih =>
    simp only [List.map_cons, List.nodup_cons] at hnodup
    rcases List.mem_cons.mp hmem with h | hmem2
    · subst h
      simp [dictGetRange]
    · have hk : ¬(p.1 == k) := by
        simp only [beq_iff_eq]
        intro h
        exact hnodup.1 (h ▸ List.mem_map_of_mem Prod.fst hmem2)
      have hstep : dictGetRange (p :: rest) k = dictGetRange rest k := by
        unfold dictGetRange
        rw [@List.find?_cons_of_neg _ (fun q => q.1 == k) p rest hk]
      rw [hstep]
      exact ih hnodup.2 hmem2

lemma scanDivisor_eq_of_max (ranges : SleepRanges) (sn k : Nat) (l : List Nat)
    (hsorted : l.Sorted (· ≥ ·)) (hk : k ∈ l) (hdvd : sn % k = 0)
    (hmax : ∀ m ∈ l, sn % m = 0 → m ≤ k) :
    scanDivisor ranges sn l = dictGetRange ranges k := by
  induction l with
  | nil => cases hk
  | cons h t ih =>
    rw [List.sorted_cons] at hsorted
    have hstep : scanDivisor ranges sn (h :: t)
        = if sn % h = 0 then dictGetRange ranges h else scanDivisor ranges sn t := rfl
    by_cases hh : sn % h = 0
    · have h1 : h ≤ k := hmax h (List.mem_cons_self h t) hh
      have h2 : k ≤ h := by
        rcases List.mem_cons.mp hk with rfl | hkt
        · exact le_refl k
        · exact hsorted.1 k hkt
      have hhk : h = k := le_antisymm h1 h2
      rw [hstep, if_pos hh, hhk]
    · have hk2 : k ∈ t := by
        rcases List.mem_cons.mp hk with rfl | hkt
        · exact absurd hdvd hh
        · exact hkt
      rw [hstep, if_neg hh]
      exact ih hsorted.2 hk2 (fun m hm hd => hmax m (List.mem_cons_of_mem h hm) hd)

lemma scanDivisor_eq_default (ranges : SleepRanges) (sn : Nat) (l : List Nat)
    (h : ∀ m ∈ l, sn % m ≠ 0) : scanDivisor ranges sn l = (1, 2) := by
  induction l with
  | nil => rfl
  | cons a t ih =>
    have hstep : scanDivisor ranges sn (a :: t)
        = if sn % a = 0 then dictGetRange ranges a else scanDivisor ranges sn t := rfl
    rw [hstep, if_neg (h a (List.mem_cons_self a t))]
    exact ih (fun m hm => h m (List.mem_cons_of_mem a hm))

lemma mem_sortDesc (l : List Nat) (a : Nat) : a ∈ sortDesc l ↔ a ∈ l :=
  (List.perm_insertionSort _ l).mem_iff

lemma sorted_sortDesc (l : List Nat) : (sortDesc l).Sorted (· ≥ ·) :=
  List.sorted_insertionSort _ l

/-- C1: for a sleeping-range table with positive, distinct keys, the lookup for
`search_count ≥ 1` returns the range keyed by the largest table key that evenly
divides `search_count`; if `search_count = 0` or no key divides it, the default
range `(1, 2)` is returned. (Keys are positive because they mean "every n-th
search"; a zero key would raise `ZeroDivisionError` in the source.) -/
theorem C1_largest_sleep_range_spec (ranges : SleepRanges) (sn : Nat)
    (hpos : ∀ m ∈ ranges.map Prod.fst, 0 < m)
    (hnodup : (ranges.map Prod.fst).Nodup) :
    (∀ k v, 1 ≤ sn → (k, v) ∈ ranges → sn % k = 0 →
      (∀ m ∈ ranges.map Prod.fst, sn % m = 0 → m ≤ k) →
      largest_sleep_range ranges sn = v)
    ∧ ((sn = 0 ∨ ∀ m ∈ ranges.map Prod.fst, sn % m ≠ 0) →
      largest_sleep_range ranges sn = (1, 2)) := by
  constructor
  · intro k v hsn hmem hdvd hmax
    have hsn0 : sn ≠ 0 := Nat.one_le_iff_ne_zero.mp hsn
    rw [largest_sleep_range, if_pos hsn0]
    rw [scanDivisor_eq_of_max ranges sn k (sortDesc (ranges.map Prod.fst))
      (sorted_sortDesc _)
      ((mem_sortDesc _ _).mpr (List.mem_map_of_mem Prod.fst hmem))
      hdvd
      (fun m hm hd => hmax m ((mem_sortDesc _ _).mp hm) hd)]
    exact dictGetRange_eq ranges k v hnodup hmem
  · rintro (rfl | hnone)
    · rfl
    · by_cases hsn0 : sn = 0
      · subst hsn0; rfl
      · rw [largest_sleep_range, if_pos hsn0]
        exact scanDivisor_eq_default ranges sn _
          (fun m hm => hnone m ((mem_sortDesc _ _).mp hm))

/-- Witness for C1 at the spec's own example: table `{5: (2,4), 10: (10,20)}`
and `search_count = 10` yield the range keyed by 10, the largest divisor. -/
theorem C1_largest_sleep_range_spec_witness :
    largest_sleep_range [(5, (2, 4)), (10, (10, 20))] 10 = (10, 20) :=
  (C1_largest_sleep_range_spec [(5, (2, 4)), (10, (10, 20))] 10
    (by decide) (by decide)).1 10 (10, 20) (by decide) (by decide) (by decide) (by decide)

/-! ## Base search URL resolution (`get_base_search_url_by_search_engine`) -/

/-- The valid search modes (`SEARCH_MODES` in the source). -/
def SEARCH_MODES : List String := ["http", "selenium", "http-async"]

/-- The filesystem visible to `os.path.exists` and `open(...).read()`, embedded
as a map from paths to file contents. -/
abbrev FileSystem := List (String × String)

/-- Reading a file: `some contents` when the path exists, `none` otherwise. -/
def fsRead (fs : FileSystem) (path : String) : Option String :=
  (fs.find? (fun p => p.1 == path)).map (fun p => p.2)

/-- Embedding of `get_base_search_url_by_search_engine`: the mode+engine key
`{mode}_{engine}_search_url` is consulted first, falling back (when missing or
empty, Python falsiness) to the engine key `{engine}_search_url`; if the
configured `{engine}_ip_file` path exists, its contents are split on newlines
and `random.choice` picks one entry, overriding the static URL. The random
choice is embedded by reducing `randSeed` modulo the number of entries. -/
def get_base_search_url_by_search_engine (config : List (String × String))
    (search_engine_name search_mode : String) (fs : FileSystem) (randSeed : Nat) :
    Option String :=
  let specific0 := configGet config (search_mode ++ "_" ++ search_engine_name ++ "_search_url")
  let specific_base_url :=
    if pyFalsyStr specific0 = true then configGet config (search_engine_name ++ "_search_url")
    else specific0
  let ipfile := (configGet config (search_engine_name ++ "_ip_file")).getD ""
  match fsRead fs ipfile with
  | some contents =>
    some ((splitNl contents).getD (randSeed % (splitNl contents).length) "")
  | none => specific_base_url

lemma splitNlAux_length_pos : ∀ (l acc : List Char), 0 < (splitNlAux l acc).length
  | [], _ => by simp [splitNlAux]
  | c :: rest, acc => by
    by_cases h : c = '\n'
    · simp [splitNlAux, h]
    · simpa [splitNlAux, h] using splitNlAux_length_pos rest (c :: acc)

lemma splitNl_length_pos (s : String) : 0 < (splitNl s).length := by
  unfold splitNl
  rw [List.length_map]
  exact splitNlAux_length_pos s.data []

lemma getD_mem_of_pos (l : List String) (n : Nat) (d : String) (h : n < l.length) :
    l.getD n d ∈ l := by
  rw [List.getD_eq_getElem l d h]
  exact l.getElem_mem h

/-- C2 (amended): base-URL resolution returns the mode+engine-specific
configured URL when it is present and non-empty; when the mode+engine key is
absent the result is exactly the engine-specific lookup — in particular `none`
when that is absent too. There is no further global-default fallback in the
code. (Assumes the engine has no live IP-rotation file, which would override
both, and a valid search mode, as the source asserts.) -/
theorem C2_base_url_precedence (config : List (String × String)) (engine mode : String)
    (fs : FileSystem) (r : Nat)
    (hmode : mode ∈ SEARCH_MODES)
    (hnoip : fsRead fs ((configGet config (engine ++ "_ip_file")).getD "") = none) :
    (∀ A, configGet config (mode ++ "_" ++ engine ++ "_search_url") = some A → A ≠ "" →
      get_base_search_url_by_search_engine config engine mode fs r = some A)
    ∧ (configGet config (mode ++ "_" ++ engine ++ "_search_url") = none →
      get_base_search_url_by_search_engine config engine mode fs r
        = configGet config (engine ++ "_search_url")) := by
  constructor
  · intro A hA hAne
    simp only [get_base_search_url_by_search_engine, hA, hnoip]
    rw [if_neg (by simp [pyFalsyStr, hAne])]
  · intro hnone
    simp only [get_base_search_url_by_search_engine, hnone, hnoip]
    rw [if_pos (by simp [pyFalsyStr])]

/-- Witness for C2 at the spec's example: `{http_google_search_url: A,
google_search_url: B}` resolves to `A` under mode `http`, and with the
mode-specific key removed it resolves to `B`. -/
theorem C2_base_url_precedence_witness :
    get_base_search_url_by_search_engine
        [("http_google_search_url", "A"), ("google_search_url", "B")] "google" "http" [] 0
      = some "A"
    ∧ get_base_search_url_by_search_engine
        [("google_search_url", "B")] "google" "http" [] 0
      = some "B" :=
  ⟨(C2_base_url_precedence [("http_google_search_url", "A"), ("google_search_url", "B")]
      "google" "http" [] 0 (by decide) (by decide)).1 "A" (by decide) (by decide),
   by
    rw [(C2_base_url_precedence [("google_search_url", "B")]
      "google" "http" [] 0 (by decide) (by decide)).2 (by decide)]
    decide⟩

/-- C2 counterexample: with both the mode+engine-specific and the
engine-specific keys absent, resolution returns `none` — not a configured
global default base URL (here `search_url`, the only URL in the config). -/
theorem C2_no_global_default_counterexample :
    get_base_search_url_by_search_engine
        [("search_url", "http://global.example/search")] "google" "http" [] 0 = none
    ∧ (none : Option String) ≠ some "http://global.example/search" := by
  exact ⟨by decide, by decide⟩

/-- C4 (amended): when the engine's configured IP-rotation file exists, the
resolved base URL is one of the fields obtained by splitting the file on
newlines — which may include the empty string when the file has a trailing
newline or blank lines — and the result is independent of the statically
configured search URLs. -/
theorem C4_ip_file_overrides (config : List (String × String)) (engine mode : String)
    (fs : FileSystem) (r : Nat) (path contents : String)
    (hip : configGet config (engine ++ "_ip_file") = some path)
    (hfs : fsRead fs path = some contents) :
    get_base_search_url_by_search_engine config engine mode fs r
        = some ((splitNl contents).getD (r % (splitNl contents).length) "")
    ∧ (∃ line ∈ splitNl contents,
        get_base_search_url_by_search_engine config engine mode fs r = some line)
    ∧ (∀ config2 : List (String × String),
        configGet config2 (engine ++ "_ip_file") = some path →
        get_base_search_url_by_search_engine config2 engine mode fs r
          = get_base_search_url_by_search_engine config engine mode fs r) := by
  have hmain : ∀ cfg : List (String × String),
      configGet cfg (engine ++ "_ip_file") = some path →
      get_base_search_url_by_search_engine cfg engine mode fs r
        = some ((splitNl contents).getD (r % (splitNl contents).length) "") := by
    intro cfg hcfg
    simp only [get_base_search_url_by_search_engine, hcfg, Option.getD_some, hfs]
  refine ⟨hmain config hip, ?_, ?_⟩
  · refine ⟨(splitNl contents).getD (r % (splitNl contents).length) "", ?_, hmain config hip⟩
    exact getD_mem_of_pos _ _ _ (Nat.mod_lt _ (splitNl_length_pos contents))
  · intro config2 h2
    rw [hmain config2 h2, hmain config hip]

/-- Witness for C4: engine `google` with `google_ip_file = ips.txt` holding two
addresses; the resolved URL is the seed-selected line of the file. -/
theorem C4_ip_file_overrides_witness :
    get_base_search_url_by_search_engine
        [("google_ip_file", "ips.txt"), ("google_search_url", "http://www.google.com/search")]
        "google" "http" [("ips.txt", "1.2.3.4\n5.6.7.8")] 0
      = some "1.2.3.4" := by
  rw [(C4_ip_file_overrides
    [("google_ip_file", "ips.txt"), ("google_search_url", "http://www.google.com/search")]
    "google" "http" [("ips.txt", "1.2.3.4\n5.6.7.8")] 0 "ips.txt" "1.2.3.4\n5.6.7.8"
    (by decide) (by decide)).1]
  decide

/-- C4 counterexample: a non-empty IP file whose content is `"1.2.3.4\n"`
(one address followed by a trailing newline) can resolve to the empty string,
which is not one of the file's non-empty lines. -/
theorem C4_empty_line_counterexample :
    ("1.2.3.4\n" ≠ "")
    ∧ get_base_search_url_by_search_engine
        [("google_ip_file", "ips.txt"), ("google_search_url", "http://www.google.com/search")]
        "google" "http" [("ips.txt", "1.2.3.4\n")] 1 = some ""
    ∧ "" ∉ (splitNl "1.2.3.4\n").filter (fun l => l != "") := by
  exact ⟨by decide, by decide, by decide⟩

/-! ## Job grouping (`ScrapeWorkerFactory.is_suitabe` / `add_job` / `get_worker`) -/

/-- A raw scrape job as handed to the factories: the dict
`{query, page_number, search_engine, scrape_method}`. -/
structure ScrapeJob where
  query : String
  page_number : Nat
  search_engine : String
  scrape_method : String
  deriving DecidableEq, Repr

/-- The factory's `self.jobs` dict `query → list of page numbers`, embedded as
an insertion-ordered association list. -/
abbrev JobsDict := List (String × List Nat)

/-- The state of a `ScrapeWorkerFactory` relevant to job grouping: its mode,
search engine and accumulated jobs dict (`dict()` on construction). -/
structure ScrapeWorkerFactory where
  mode : String
  search_engine : String
  jobs : JobsDict
  deriving DecidableEq, Repr

/-- Embedding of `ScrapeWorkerFactory.is_suitabe` (sic): a job belongs to this
factory iff its scrape method equals the factory's mode and its search engine
equals the factory's search engine. -/
def is_suitabe (f : ScrapeWorkerFactory) (job : ScrapeJob) : Bool :=
  job.scrape_method == f.mode && job.search_engine == f.search_engine

/-- Embedding of `ScrapeWorkerFactory.add_job`: append the job's page number to
the entry for its query, creating the entry first when the query is new. -/
def add_job (f : ScrapeWorkerFactory) (job : ScrapeJob) : ScrapeWorkerFactory :=
  { f with jobs :=
      if (f.jobs.find? (fun p => p.1 == job.query)).isSome then
        f.jobs.map (fun p => if p.1 == job.query then (p.1, p.2 ++ [job.page_number]) else p)
      else f.jobs ++ [(job.query, [job.page_number])] }

/-- The grouping loop of the callers of `is_suitabe`/`add_job`: each raw job is
offered to the factory and added exactly when `is_suitabe` accepts it. -/
def assign_jobs (f : ScrapeWorkerFactory) (jobs : List ScrapeJob) : ScrapeWorkerFactory :=
  jobs.foldl (fun acc job => if is_suitabe acc job then add_job acc job else acc) f

/-- The page-number list recorded for a query (`[]` when the query is absent). -/
def pagesOf (jobs : JobsDict) (q : String) : List Nat :=
  ((jobs.find? (fun p => p.1 == q)).map (fun p => p.2)).getD []

/-- The queries of a jobs dict in insertion order. -/
def queriesOf (jobs : JobsDict) : List String := jobs.map Prod.fst

/-- Order-preserving deduplication of a list of queries, continuing from an
already-collected prefix. -/
def firstSeenFrom (acc : List String) (l : List String) : List String :=
  l.foldl (fun a q => if q ∈ a then a else a ++ [q]) acc

/-- Order-preserving deduplication: each query at its first occurrence. -/
def firstSeen (l : List String) : List String := firstSeenFrom [] l

/-- The workers `get_worker` can build: the selenium scraper or `HttpScrape`,
each carrying the factory's search engine and accumulated jobs. -/
inductive ScrapeWorker where
  | seleniumScraper (search_engine : String) (jobs : JobsDict)
  | httpScraper (search_engine : String) (jobs : JobsDict)
  deriving DecidableEq, Repr

/-- Embedding of `ScrapeWorkerFactory.get_worker`: a worker is built only when
the jobs dict is non-empty and the mode is `selenium` or `http`; every other
case falls through to `None`. -/
def get_worker (f : ScrapeWorkerFactory) : Option ScrapeWorker :=
  if f.jobs ≠ [] then
    if f.mode = "selenium" then some (ScrapeWorker.seleniumScraper f.search_engine f.jobs)
    else if f.mode = "http" then some (ScrapeWorker.httpScraper f.search_engine f.jobs)
    else none
  else none

/-! ## Lemmas about job grouping -/

lemma is_suitabe_add_job (f : ScrapeWorkerFactory) (j j2 : ScrapeJob) :
    is_suitabe (add_job f j) j2 = is_suitabe f j2 := rfl

lemma pagesOf_add_job (f : ScrapeWorkerFactory) (j : ScrapeJob) (q : String) :
    pagesOf (add_job f j).jobs q
      = if q = j.query then pagesOf f.jobs q ++ [j.page_number] else pagesOf f.jobs q := by
  by_cases hpres : (f.jobs.find? (fun p => p.1 == j.query)).isSome
  · have hjobs : (add_job f j).jobs
        = f.jobs.map (fun p => if p.1 == j.query then (p.1, p.2 ++ [j.page_number]) else p) := by
      simp only [add_job, if_pos hpres]
    have hcomp : ((fun p : String × List Nat => p.1 == q)
        ∘ (fun p : String × List Nat => if p.1 == j.query then (p.1, p.2 ++ [j.page_number]) else p))
        = fun p : String × List Nat => p.1 == q := by
      funext p
      by_cases h : p.1 = j.query <;> simp [h]
    unfold pagesOf
    rw [hjobs, List.find?_map, hcomp]
    rcases hfind : f.jobs.find? (fun p => p.1 == q) with _ | p
    · have hq : ¬(q = j.query) := by
        intro h
        rw [h] at hfind
        rw [hfind] at hpres
        simp at hpres
      rw [hfind]
      simp [hq]
    · have hpq : p.1 = q := by
        have := List.find?_some hfind
        simpa using this
      rw [hfind]
      by_cases hq : q = j.query
      · have hc : p.1 = j.query := by rw [hpq, hq]
        simp [hq, hc]
      · have hc : ¬(p.1 = j.query) := by rw [hpq]; exact hq
        simp [hq, hc]
  · have hjobs : (add_job f j).jobs = f.jobs ++ [(j.query, [j.page_number])] := by
      simp only [add_job, if_neg hpres]
    unfold pagesOf
    rw [hjobs, List.find?_append]
    rcases hfind : f.jobs.find? (fun p => p.1 == q) with _ | p
    · rw [hfind]
      by_cases hq : q = j.query
      · simp [List.find?_singleton, hq]
      · have hne : ¬(j.query = q) := fun h => hq h.symm
        simp [List.find?_singleton, hq, hne]
    · have hq : ¬(q = j.query) := by
        intro h
        rw [h] at hfind
        exact hpres (by rw [hfind]; rfl)
      rw [hfind]
      simp [hq]

lemma queriesOf_add_job (f : ScrapeWorkerFactory) (j : ScrapeJob) :
    queriesOf (add_job f j).jobs
      = if j.query ∈ queriesOf f.jobs then queriesOf f.jobs
        else queriesOf f.jobs ++ [j.query] := by
  have hmem : (f.jobs.find? (fun p => p.1 == j.query)).isSome = true
      ↔ j.query ∈ queriesOf f.jobs := by
    rw [List.find?_isSome]
    constructor
    · rintro ⟨p, hp, hpq⟩
      have : p.1 = j.query := by simpa using hpq
      exact this ▸ List.mem_map_of_mem Prod.fst hp
    · intro h
      rcases List.mem_map.mp h with ⟨p, hp, hpq⟩
      exact ⟨p, hp, by simp [hpq]⟩
  by_cases hpres : (f.jobs.find? (fun p => p.1 == j.query)).isSome
  · have hq : j.query ∈ queriesOf f.jobs := hmem.mp hpres
    have hjobs : (add_job f j).jobs
        = f.jobs.map (fun p => if p.1 == j.query then (p.1, p.2 ++ [j.page_number]) else p) := by
      simp only [add_job, if_pos hpres]
    rw [hjobs, if_pos hq]
    unfold queriesOf
    rw [List.map_map]
    congr 1
    funext p
    by_cases h : p.1 = j.query <;> simp [h]
  · have hq : j.query ∉ queriesOf f.jobs := fun h => hpres (hmem.mpr h)
    have hjobs : (add_job f j).jobs = f.jobs ++ [(j.query, [j.page_number])] := by
      simp only [add_job, if_neg hpres]
    rw [hjobs, if_neg hq]
    simp [queriesOf]

lemma assign_jobs_pages (f : ScrapeWorkerFactory) (jobs : List ScrapeJob) (q : String) :
    pagesOf (assign_jobs f jobs).jobs q
      = pagesOf f.jobs q
        ++ ((jobs.filter (fun j => is_suitabe f j && j.query == q)).map
            ScrapeJob.page_number) := by
  induction jobs generalizing f with
  | nil => simp [assign_jobs]
  | cons j rest ih =>
    have hstep : assign_jobs f (j :: rest)
        = assign_jobs (if is_suitabe f j then add_job f j else f) rest := rfl
    by_cases hs : is_suitabe f j = true
    · rw [hstep, if_pos hs, ih (add_job f j)]
      simp only [is_suitabe_add_job, pagesOf_add_job]
      simp only [List.filter_cons]
      by_cases hq : j.query = q
      · have hpj : (is_suitabe f j && (j.query == q)) = true := by simp [hs, hq]
        rw [if_pos hpj, List.map_cons, if_pos hq.symm,
          List.append_assoc, List.singleton_append]
      · have hpj : (is_suitabe f j && (j.query == q)) = false := by simp [hq]
        have hnot1 : ¬(q = j.query) := fun h => hq h.symm
        have hnot2 : ¬((is_suitabe f j && (j.query == q)) = true) := by simp [hpj]
        rw [if_neg hnot1, if_neg hnot2]
    · rw [hstep, if_neg (by simp [hs]), ih f]
      simp only [List.filter_cons]
      have hpj : (is_suitabe f j && (j.query == q)) = false := by
        simp only [Bool.not_eq_true] at hs
        simp [hs]
      have hnot2 : ¬((is_suitabe f j && (j.query == q)) = true) := by simp [hpj]
      rw [if_neg hnot2]

lemma assign_jobs_queries (f : ScrapeWorkerFactory) (jobs : List ScrapeJob) :
    queriesOf (assign_jobs f jobs).jobs
      = firstSeenFrom (queriesOf f.jobs)
          ((jobs.filter (fun j => is_suitabe f j)).map ScrapeJob.query) := by
  induction jobs generalizing f with
  | nil => simp [assign_jobs, firstSeenFrom]
  | cons j rest ih =>
    have hstep : assign_jobs f (j :: rest)
        = assign_jobs (if is_suitabe f j then add_job f j else f) rest := rfl
    by_cases hs : is_suitabe f j = true
    · rw [hstep, if_pos hs, ih (add_job f j)]
      simp only [is_suitabe_add_job, queriesOf_add_job]
      simp only [List.filter_cons]
      rw [if_pos hs, List.map_cons]
      rfl
    · rw [hstep, if_neg (by simp [hs]), ih f]
      simp only [List.filter_cons]
      rw [if_neg (by simp [hs])]

/-- C3 (amended): feeding a list of raw jobs to a factory (initially empty jobs
dict) records, for every query, exactly the page numbers of the jobs whose
(scrape method, search engine) pair matches the factory, in encounter order and
with duplicates retained (a repeated page for the same query appears once per
occurrence, not once); the queries of the resulting batch appear in first-seen
insertion order. -/
theorem C3_grouping_spec (mode se : String) (jobs : List ScrapeJob) :
    (∀ q, pagesOf (assign_jobs ⟨mode, se, []⟩ jobs).jobs q
      = ((jobs.filter (fun j => is_suitabe ⟨mode, se, []⟩ j && j.query == q)).map
          ScrapeJob.page_number))
    ∧ queriesOf (assign_jobs ⟨mode, se, []⟩ jobs).jobs
      = firstSeen ((jobs.filter (fun j => is_suitabe ⟨mode, se, []⟩ j)).map
          ScrapeJob.query) := by
  constructor
  · intro q
    rw [assign_jobs_pages ⟨mode, se, []⟩ jobs q]
    rfl
  · rw [assign_jobs_queries ⟨mode, se, []⟩ jobs]
    rfl

/-- C3 counterexample: two identical jobs for the same query and page are both
recorded, so the page list for the query is `[1, 1]`, not the deduplicated
`[1]` the claim requires. -/
theorem C3_dedup_counterexample :
    pagesOf (assign_jobs ⟨"http", "google", []⟩
        [⟨"q1", 1, "google", "http"⟩, ⟨"q1", 1, "google", "http"⟩]).jobs "q1" = [1, 1]
    ∧ ([1, 1] : List Nat) ≠ [1] := by
  exact ⟨by decide, by decide⟩

/-- C9: `get_worker` returns a worker exactly when at least one job has been
added and the factory's mode is `selenium` or `http`; in particular a factory
in mode `http-async` returns `None` even when it holds jobs, so no session is
created for an empty batch or for the asynchronous-HTTP mode. -/
theorem C9_get_worker_spec (f : ScrapeWorkerFactory) :
    ((get_worker f).isSome = true
      ↔ (f.jobs ≠ [] ∧ (f.mode = "selenium" ∨ f.mode = "http")))
    ∧ get_worker ⟨"http-async", f.search_engine, f.jobs⟩ = none := by
  constructor
  · unfold get_worker
    by_cases h1 : f.jobs ≠ [] <;> by_cases h2 : f.mode = "selenium" <;>
      by_cases h3 : f.mode = "http" <;> simp [h1, h2, h3]
  · unfold get_worker
    by_cases h1 : f.jobs ≠ [] <;> simp [h1]

/-! ## Session state (`SearchEngineScrape`) -/

/-- The session attributes of `SearchEngineScrape` that the verified operations
read or write. `progress_events` records the values put on the progress queue,
`cache_events` the keys passed to the cache manager. -/
structure SearchEngineScrapeState where
  config_check_proxies : Bool
  search_engine_name : String
  scrape_method : String
  query : String
  missed_keywords : List String
  search_number : Nat
  start_page_pos : Nat
  page_number : Nat
  proxy : Option String
  startable : Bool
  status : String
  current_delay : Option Nat
  sleeping_ranges : SleepRanges
  has_progress_queue : Bool
  progress_events : List Nat
  cache_events : List (String × String × String × Nat)
  deriving DecidableEq, Repr

/-- The four-value status set of the spec's ScrapeSession data model. -/
def STATUS_ENUM : List String := ["running", "successful", "failed", "proxy_exhausted"]

/-- Embedding of `SearchEngineScrape.__init__` restricted to the verified
attributes: the status starts as `'successful'`, the instance is startable, the
search number is 1, and `page_number` starts at the resolved start page (the
positional argument clamped to at least 1 when nonzero, else the configured
`search_offset`). -/
def SearchEngineScrape_init (config_check_proxies : Bool) (search_engine_name : String)
    (start_page_pos_arg : Int) (search_offset : Nat) (proxy : Option String)
    (sleeping_ranges : SleepRanges) (has_progress_queue : Bool) :
    SearchEngineScrapeState :=
  let spp : Nat :=
    if start_page_pos_arg ≠ 0 then
      (if start_page_pos_arg < 1 then 1 else start_page_pos_arg.toNat)
    else search_offset
  { config_check_proxies := config_check_proxies
    search_engine_name := search_engine_name
    scrape_method := ""
    query := ""
    missed_keywords := []
    search_number := 1
    start_page_pos := spp
    page_number := spp
    proxy := proxy
    startable := true
    status := "successful"
    current_delay := none
    sleeping_ranges := sleeping_ranges
    has_progress_queue := has_progress_queue
    progress_events := []
    cache_events := [] }

/-- Embedding of `SearchEngineScrape.next_page`: `self.start_page_pos += 1`. -/
def next_page (s : SearchEngineScrapeState) : SearchEngineScrapeState :=
  { s with start_page_pos := s.start_page_pos + 1 }

/-- Embedding of the base `SearchEngineScrape.handle_request_denied`:
`self.status = 'Malicious request detected: {}'.format(status_code)`. -/
def handle_request_denied (s : SearchEngineScrapeState) (status_code : String) :
    SearchEngineScrapeState :=
  { s with status := "Malicious request detected: " ++ status_code }

/-- Embedding of `SearchEngineScrape.before_search`: when proxy checking is
configured on and a proxy is assigned, a failing `proxy_check` clears
`startable`; nothing else happens. -/
def before_search (s : SearchEngineScrapeState) (proxy_check : String → Bool) :
    SearchEngineScrapeState :=
  if s.config_check_proxies then
    match s.proxy with
    | some p => if !(proxy_check p) then { s with startable := false } else s
    | none => s
  else s

/-- Embedding of `SearchEngineScrape.cache_results`: hand the cache manager the
current query, search engine, scrape method and page number. -/
def cache_results (s : SearchEngineScrapeState) : SearchEngineScrapeState :=
  { s with cache_events := s.cache_events
      ++ [(s.query, s.search_engine_name, s.scrape_method, s.page_number)] }

/-- Embedding of `SearchEngineScrape.after_search`: increment the search
number, store the parsed results (an external collaborator, not part of this
state), put one unit on the progress queue when one is configured, and cache
the results. -/
def after_search (s : SearchEngineScrapeState) : SearchEngineScrapeState :=
  let s1 := { s with search_number := s.search_number + 1 }
  let s2 := if s1.has_progress_queue then
      { s1 with progress_events := s1.progress_events ++ [1] }
    else s1
  cache_results s2

/-- Embedding of Python's `random.randrange(lo, hi)`: an integer in
`[lo, hi)`, selected here by reducing the seed modulo the range width. -/
def randrange (lo hi : Nat) (seed : Nat) : Nat := lo + seed % (hi - lo)

/-- Embedding of `SearchEngineScrape.detection_prevention_sleep`: draw the
delay from the matched sleep range, record it as `current_delay`, and return
the duration handed to `time.sleep` (the assignment precedes the sleep). -/
def detection_prevention_sleep (s : SearchEngineScrapeState) (seed : Nat) :
    SearchEngineScrapeState × Nat :=
  let range := largest_sleep_range s.sleeping_ranges s.search_number
  let d := randrange range.1 range.2 seed
  ({ s with current_delay := some d }, d)

lemma malicious_status_length (code : String) :
    ("Malicious request detected: " ++ code).length = 28 + code.length := by
  rw [String.length_append, show ("Malicious request detected: ").length = 28 from by decide]

/-- C5 (amended): immediately after construction the session status is
`'successful'`, which lies in the four-value set
`{running, successful, failed, proxy_exhausted}`; but after
`handle_request_denied` the status is the free-form string
`'Malicious request detected: <code>'`, which is never in that set. -/
theorem C5_status_enum (cp : Bool) (se : String) (spp : Int) (so : Nat)
    (pr : Option String) (sr : SleepRanges) (pq : Bool)
    (s : SearchEngineScrapeState) (code : String) :
    (SearchEngineScrape_init cp se spp so pr sr pq).status ∈ STATUS_ENUM
    ∧ (handle_request_denied s code).status = "Malicious request detected: " ++ code
    ∧ (handle_request_denied s code).status ∉ STATUS_ENUM := by
  refine ⟨by simp [SearchEngineScrape_init, STATUS_ENUM], rfl, ?_⟩
  intro hmem
  simp only [STATUS_ENUM, handle_request_denied, List.mem_cons,
    List.mem_singleton, List.not_mem_nil, or_false] at hmem
  rcases hmem with h | h | h | h
  · have hl := congrArg String.length h
    rw [malicious_status_length, show ("running").length = 7 from by decide] at hl
    omega
  · have hl := congrArg String.length h
    rw [malicious_status_length, show ("successful").length = 10 from by decide] at hl
    omega
  · have hl := congrArg String.length h
    rw [malicious_status_length, show ("failed").length = 6 from by decide] at hl
    omega
  · have hl := congrArg String.length h
    rw [malicious_status_length, show ("proxy_exhausted").length = 15 from by decide] at hl
    omega

/-- C5 counterexample: after `handle_request_denied('403')` the status is
`'Malicious request detected: 403'`, which is not one of the four enum values,
refuting the claim that the status always stays in that set. -/
theorem C5_status_counterexample :
    (handle_request_denied
        (SearchEngineScrape_init true "google" 1 1 none [] false) "403").status
      ∉ STATUS_ENUM := by
  decide

/-- C6: before the search loop, `startable` is cleared iff proxy checking is
configured on, a proxy is assigned, and the proxy check fails (or it was
already false); in every other case the whole session state is untouched. -/
theorem C6_before_search_spec (s : SearchEngineScrapeState) (pc : String → Bool) :
    ((before_search s pc).startable = false
      ↔ (s.startable = false
          ∨ (s.config_check_proxies = true ∧ ∃ p, s.proxy = some p ∧ pc p = false)))
    ∧ ((s.config_check_proxies = false ∨ s.proxy = none
          ∨ (∃ p, s.proxy = some p ∧ pc p = true)) →
        before_search s pc = s) := by
  by_cases hcp : s.config_check_proxies = true
  · rcases hpr : s.proxy with _ | p
    · constructor
      · simp [before_search, hcp, hpr]
      · intro h
        simp [before_search, hcp, hpr]
    · by_cases hpc : pc p = true
      · constructor
        · simp [before_search, hcp, hpr, hpc]
        · intro h
          simp [before_search, hcp, hpr, hpc]
      · constructor
        · simp [before_search, hcp, hpr, hpc]
        · intro h
          rcases h with h | h | ⟨p2, hp2, hpc2⟩
          · rw [hcp] at h
            cases h
          · cases h
          · cases hp2
            exact absurd hpc2 hpc
  · have hcp2 : s.config_check_proxies = false := by
      rcases hb : s.config_check_proxies with _ | _
      · rfl
      · exact absurd hb hcp
    constructor
    · simp [before_search, hcp2]
    · intro h
      simp [before_search, hcp2]

/-- Witness for C6: a session with proxy checking on and an assigned proxy
whose health check fails becomes non-startable. -/
theorem C6_before_search_witness :
    (before_search
        (SearchEngineScrape_init true "google" 1 1 (some "1.2.3.4:80") [] false)
        (fun _ => false)).startable = false :=
  (C6_before_search_spec
      (SearchEngineScrape_init true "google" 1 1 (some "1.2.3.4:80") [] false)
      (fun _ => false)).1.mpr
    (Or.inr ⟨rfl, "1.2.3.4:80", rfl, rfl⟩)

/-- C7: after a successful (non-malicious) search, `after_search` increments
the search counter by exactly one, puts exactly one unit on the progress queue
when one is configured (and none otherwise), and caches the result keyed by
(query, search engine, scrape mode, page number). -/
theorem C7_after_search_spec (s : SearchEngineScrapeState) :
    (after_search s).search_number = s.search_number + 1
    ∧ (after_search s).progress_events
        = (if s.has_progress_queue then s.progress_events ++ [1] else s.progress_events)
    ∧ (after_search s).cache_events
        = s.cache_events
          ++ [(s.query, s.search_engine_name, s.scrape_method, s.page_number)] := by
  by_cases h : s.has_progress_queue = true <;>
    simp [after_search, cache_results, h]

/-- C8: the anti-detection delay is an integer drawn from the chosen sleep
range, inclusive of min and exclusive of max (`random.randrange`), the stored
`current_delay` equals the slept duration, and on residue seeds the draw is a
bijection onto the range — the uniform seed induces a uniform delay. -/
theorem C8_detection_prevention_sleep_spec (s : SearchEngineScrapeState)
    (seed lo hi : Nat)
    (hrange : largest_sleep_range s.sleeping_ranges s.search_number = (lo, hi))
    (hlt : lo < hi) :
    (lo ≤ (detection_prevention_sleep s seed).2
      ∧ (detection_prevention_sleep s seed).2 < hi)
    ∧ (detection_prevention_sleep s seed).1.current_delay
        = some ((detection_prevention_sleep s seed).2)
    ∧ (∀ t, lo ≤ t → t < hi → ∃ r2, r2 < hi - lo ∧ randrange lo hi r2 = t)
    ∧ (∀ r1 r2, r1 < hi - lo → r2 < hi - lo →
        randrange lo hi r1 = randrange lo hi r2 → r1 = r2) := by
  have hd : (detection_prevention_sleep s seed).2 = randrange lo hi seed := by
    simp [detection_prevention_sleep, hrange]
  refine ⟨?_, rfl, ?_, ?_⟩
  · rw [hd]
    unfold randrange
    have hm : seed % (hi - lo) < hi - lo := Nat.mod_lt _ (by omega)
    omega
  · intro t h1 h2
    refine ⟨t - lo, by omega, ?_⟩
    unfold randrange
    rw [Nat.mod_eq_of_lt (by omega)]
    omega
  · intro r1 r2 h1 h2 h3
    unfold randrange at h3
    rw [Nat.mod_eq_of_lt h1, Nat.mod_eq_of_lt h2] at h3
    omega

/-- Witness for C8: with the sleep table `{1: (7, 9)}` and search number 1, the
chosen range is `(7, 9)` and seed 10 draws delay 7, stored as the slept
`current_delay`. -/
theorem C8_detection_prevention_sleep_witness :
    (7 ≤ (detection_prevention_sleep
        (SearchEngineScrape_init true "google" 1 1 none [(1, (7, 9))] false) 10).2
      ∧ (detection_prevention_sleep
        (SearchEngineScrape_init true "google" 1 1 none [(1, (7, 9))] false) 10).2 < 9)
    ∧ (detection_prevention_sleep
        (SearchEngineScrape_init true "google" 1 1 none [(1, (7, 9))] false) 10).1.current_delay
      = some ((detection_prevention_sleep
        (SearchEngineScrape_init true "google" 1 1 none [(1, (7, 9))] false) 10).2) :=
  ⟨(C8_detection_prevention_sleep_spec
      (SearchEngineScrape_init true "google" 1 1 none [(1, (7, 9))] false) 10 7 9
      (by decide) (by decide)).1,
   (C8_detection_prevention_sleep_spec
      (SearchEngineScrape_init true "google" 1 1 none [(1, (7, 9))] false) 10 7 9
      (by decide) (by decide)).2.1⟩

/-- C10: `next_page` increments `start_page_pos` by exactly one and leaves
`page_number` — and every other session field — unchanged. -/
theorem C10_next_page_frame (s : SearchEngineScrapeState) :
    (next_page s).start_page_pos = s.start_page_pos + 1
    ∧ (next_page s).page_number = s.page_number
    ∧ (next_page s).config_check_proxies = s.config_check_proxies
    ∧ (next_page s).search_engine_name = s.search_engine_name
    ∧ (next_page s).scrape_method = s.scrape_method
    ∧ (next_page s).query = s.query
    ∧ (next_page s).missed_keywords = s.missed_keywords
    ∧ (next_page s).search_number = s.search_number
    ∧ (next_page s).proxy = s.proxy
    ∧ (next_page s).startable = s.startable
    ∧ (next_page s).status = s.status
    ∧ (next_page s).current_delay = s.current_delay
    ∧ (next_page s).sleeping_ranges = s.sleeping_ranges
    ∧ (next_page s).has_progress_queue = s.has_progress_queue
    ∧ (next_page s).progress_events = s.progress_events
    ∧ (next_page s).cache_events = s.cache_events :=
  ⟨rfl, rfl, rfl, rfl, rfl, rfl, rfl, rfl, rfl, rfl, rfl, rfl, rfl, rfl, rfl, rfl⟩

end GoogleScraper
